import Mathlib

/-!
Verification of the data-cleaning / filtering / color-scale core of
`app_mapa_geo.py` (a Streamlit geochemical map viewer).

The script's core is three stateless transformations over an in-memory
table:
  * `load_data`  : read a CSV, coerce `latitude`/`longitude` to numeric,
    drop rows missing `latitude`, `longitude` or `tipo_muestra`;
  * the filter block (lines 75-80): keep rows whose `tipo_muestra` is in
    the selected set, coerce the selected element column to numeric, drop
    non-numeric and negative values;
  * the color scale (lines 102-113): `linear.YlOrRd_09.scale(min, max)`
    when `max > min`, the constant color `blue` otherwise.

Cells are embedded as an inductive type that records whether pandas'
`to_numeric(errors = coerce)` succeeds on them: `numeric v` coerces to
the rational `v`, `invalid s` is a string that fails coercion, `missing`
is NaN / absent.  Numbers are rationals.
-/

/-- A cell of the source table, classified by how `pd.to_numeric`
(with coercion of errors to NaN) treats it. -/
inductive Cell where
  | missing
  | numeric (v : ℚ)
  | invalid (s : String)
deriving DecidableEq, Repr

/-- `pd.to_numeric(c, errors='coerce')` viewed as a partial function:
`some v` when the cell holds (or parses to) the number `v`. -/
def toNumeric : Cell → Option ℚ
  | Cell.numeric v => some v
  | _ => none

/-- The result of `pd.to_numeric(c, errors='coerce')` as a cell: the
numeric value on success, NaN (missing) on failure. -/
def coerceCell (c : Cell) : Cell :=
  match toNumeric c with
  | some v => Cell.numeric v
  | none => Cell.missing

/-- `notna` on a cell: `dropna` keeps exactly the rows where this is true. -/
def cellPresent : Cell → Bool
  | Cell.missing => false
  | _ => true

/-- One row of the dataframe: the columns the script touches by name,
plus the element-concentration columns as an association list from
column name to cell. -/
structure Row where
  latitude : Cell
  longitude : Cell
  tipo_muestra : Option String
  municipio : Option String
  elems : List (String × Cell)
deriving DecidableEq, Repr

/-- Read column `e` of a row (`row[e]`); an absent column reads as NaN. -/
def getCol (r : Row) (e : String) : Cell :=
  match r.elems.lookup e with
  | some c => c
  | none => Cell.missing

/-- Overwrite column `e` of a row (`df[e] = ...` restricted to one row). -/
def setCol (r : Row) (e : String) (c : Cell) : Row :=
  { r with elems := (e, c) :: r.elems }

/-- Lines 23-24 of the script, per row: coerce `latitude` and `longitude`
to numeric, a failed coercion becoming NaN. -/
def cleanRow (r : Row) : Row :=
  { r with latitude := coerceCell r.latitude, longitude := coerceCell r.longitude }

/-- Line 25's `dropna(subset=['latitude', 'longitude', 'tipo_muestra'])`
predicate: all three fields present. -/
def rowComplete (r : Row) : Bool :=
  cellPresent r.latitude && cellPresent r.longitude && r.tipo_muestra.isSome

/-- `load_data` (lines 22-26) after the CSV has been parsed into rows:
coerce both coordinate columns, then drop incomplete rows. -/
def load_data (raw : List Row) : List Row :=
  (raw.map cleanRow).filter rowComplete

/-- Retention predicate on the ORIGINAL row: `load_data` keeps a row iff
its latitude and longitude coerce to numbers and its sample type is
present.  It reads only those three fields. -/
def keepRow (r : Row) : Bool :=
  (toNumeric r.latitude).isSome && (toNumeric r.longitude).isSome && r.tipo_muestra.isSome

/-- `load_data` including the `try/except FileNotFoundError` (lines 21-29):
`none` models the missing input file, and the function then returns
Python's `None` (here `none`) after reporting the error. -/
def load (file : Option (List Row)) : Option (List Row) :=
  match file with
  | none => none
  | some raw => some (load_data raw)

/-- Line 75's row predicate: `df['tipo_muestra'].isin(selected_sample_types)`.
A missing sample type is in no selection (and cannot survive cleaning). -/
def rowTypeIn (S : List String) (r : Row) : Bool :=
  match r.tipo_muestra with
  | some t => S.contains t
  | none => false

/-- Line 78, per row: overwrite the selected element column with its
numeric-coerced value. -/
def coerceColRow (e : String) (r : Row) : Row :=
  setCol r e (coerceCell (getCol r e))

/-- Line 80's predicate: the (already coerced) element value is `>= 0`. -/
def colNonNeg (e : String) (r : Row) : Bool :=
  match toNumeric (getCol r e) with
  | some v => decide (0 ≤ v)
  | none => false

/-- The filter block, lines 75-80: keep rows whose sample type is
selected, coerce the element column, drop NaN, drop negatives. -/
def filterTable (df : List Row) (e : String) (S : List String) : List Row :=
  let step1 := df.filter (rowTypeIn S)
  let step2 := step1.map (coerceColRow e)
  let step3 := step2.filter (fun r => cellPresent (getCol r e))
  step3.filter (colNonNeg e)

/-- Acceptance on the ORIGINAL row: sample type selected and the element
cell coerces to a non-negative number. -/
def acceptRow (e : String) (S : List String) (r : Row) : Bool :=
  rowTypeIn S r && (match toNumeric (getCol r e) with
    | some v => decide (0 ≤ v)
    | none => false)

/-- The script's state around the filter block: the cached clean table
`df` and the derived `df_filtered`.  Each pandas statement of lines
75-80 writes `df_filtered` only (line 75 starts from a `.copy()`). -/
structure AppState where
  df : List Row
  df_filtered : List Row
deriving DecidableEq, Repr

/-- Lines 75-80 as four sequential state updates: line 75 (select and
copy), line 78 (coerce the element column), line 79 (`dropna`), line 80
(drop negatives). -/
def runFilterBlock (s : AppState) (e : String) (S : List String) : AppState :=
  let s1 : AppState := { s with df_filtered := s.df.filter (rowTypeIn S) }
  let s2 : AppState := { s1 with df_filtered := s1.df_filtered.map (coerceColRow e) }
  let s3 : AppState := { s2 with df_filtered := s2.df_filtered.filter (fun r => cellPresent (getCol r e)) }
  { s3 with df_filtered := s3.df_filtered.filter (colNonNeg e) }

/-- The element catalog, lines 38-43 of the script. -/
def element_columns : List String :=
  ["Li_ppm2", "Cu_ppm2", "Co_ppm2", "Ni_ppm2", "La_ppm2", "Ce_ppm2",
   "Pr_ppm2", "Nd_ppm2", "Sm_ppm2", "Eu_ppm2", "Gd_ppm2", "Tb_ppm2",
   "Dy_ppm2", "Ho_ppm2", "Er_ppm2", "Tm_ppm2", "Yb_ppm2", "Lu_ppm2",
   "Sc_ppm2", "Y_ppm2"]

/-- Line 45's `e.split('_')[0]`: the text of `e` before its first
underscore. -/
def symbolOf (e : String) : String :=
  String.mk (e.data.takeWhile (fun c => c ≠ '_'))

/-- Line 45: the display names of the catalog's elements. -/
def element_names : List String :=
  element_columns.map symbolOf

/-- Line 59: the column a selected display symbol resolves to. -/
def columnOf (name : String) : String :=
  name ++ "_ppm2"

/-- `df_filtered[col].min()` on a non-empty column (line 102); `0` is a
junk default for the empty list, which the script never reaches. -/
def min_val (l : List ℚ) : ℚ :=
  l.foldl min (l.headD 0)

/-- `df_filtered[col].max()` (line 103). -/
def max_val (l : List ℚ) : ℚ :=
  l.foldl max (l.headD 0)

/-- An RGB color with rational channels. -/
structure Rgb where
  r : ℚ
  g : ℚ
  b : ℚ
deriving DecidableEq, Repr

/-- A marker color: either a gradient color or the literal fallback
string `'blue'` of line 113. -/
inductive Color where
  | grad (c : Rgb)
  | blue
deriving DecidableEq, Repr

def ylOrRd0 : Rgb := ⟨255, 255, 204⟩
def ylOrRd1 : Rgb := ⟨255, 237, 160⟩
def ylOrRd2 : Rgb := ⟨254, 217, 118⟩
def ylOrRd3 : Rgb := ⟨254, 178, 76⟩
def ylOrRd4 : Rgb := ⟨253, 141, 60⟩
def ylOrRd5 : Rgb := ⟨252, 78, 42⟩
def ylOrRd6 : Rgb := ⟨227, 26, 28⟩
def ylOrRd7 : Rgb := ⟨189, 0, 38⟩
def ylOrRd8 : Rgb := ⟨128, 0, 38⟩

/-- The 9 stops of the YlOrRd_09 palette, yellow to red. -/
def ylOrRdStops : List Rgb :=
  [ylOrRd0, ylOrRd1, ylOrRd2, ylOrRd3, ylOrRd4, ylOrRd5, ylOrRd6, ylOrRd7, ylOrRd8]

/-- Channel-wise linear interpolation between two stops. -/
def lerp3 (a b : Rgb) (t : ℚ) : Rgb :=
  ⟨a.r + (b.r - a.r) * t, a.g + (b.g - a.g) * t, a.b + (b.b - a.b) * t⟩

/-- Modelled from the spec: `branca.colormap.linear.YlOrRd_09` (an
external library, not in the repository) as the spec describes it —
piecewise-linear interpolation of the 9 evenly spaced stops over the
normalized position `t ∈ [0, 1]`, with positions outside the interval
clamped to its endpoints. -/
def colorAt (t : ℚ) : Rgb :=
  if t ≤ 0 then ylOrRd0
  else if t ≤ 1 / 8 then lerp3 ylOrRd0 ylOrRd1 (8 * t)
  else if t ≤ 2 / 8 then lerp3 ylOrRd1 ylOrRd2 (8 * t - 1)
  else if t ≤ 3 / 8 then lerp3 ylOrRd2 ylOrRd3 (8 * t - 2)
  else if t ≤ 4 / 8 then lerp3 ylOrRd3 ylOrRd4 (8 * t - 3)
  else if t ≤ 5 / 8 then lerp3 ylOrRd4 ylOrRd5 (8 * t - 4)
  else if t ≤ 6 / 8 then lerp3 ylOrRd5 ylOrRd6 (8 * t - 5)
  else if t ≤ 7 / 8 then lerp3 ylOrRd6 ylOrRd7 (8 * t - 6)
  else if t ≤ 1 then lerp3 ylOrRd7 ylOrRd8 (8 * t - 7)
  else ylOrRd8

/-- `linear.YlOrRd_09.scale(min_val, max_val)` applied to a value
(line 106): normalize into `[min, max]` and interpolate the gradient. -/
def colormap (mn mx x : ℚ) : Rgb :=
  colorAt ((x - mn) / (mx - mn))

/-- Line 113: a point's color is the gradient color when
`max_val > min_val`, the constant `'blue'` otherwise. -/
def point_color (mn mx x : ℚ) : Color :=
  if mn < mx then Color.grad (colormap mn mx x) else Color.blue

/-- Lines 105-108: the legend (the colormap with its caption) is added
to the map only when `max_val > min_val`. -/
def legend (mn mx : ℚ) (elName : String) : Option (ℚ × ℚ × String) :=
  if mn < mx then some (mn, mx, "Concentración de " ++ elName ++ " (ppm)") else none

/-- The sum of the red and green channels: strictly decreasing along the
YlOrRd gradient, so it orders colors by their position on it. -/
def chanSum (c : Rgb) : ℚ :=
  c.r + c.g

/-- Lines 34-36 and 82-113 in one piece: the run halts (yields nothing)
when the file is missing, otherwise it filters and reaches the render
stage with the filtered table. -/
def app_run (file : Option (List Row)) (e : String) (S : List String) :
    Option (List Row) :=
  match load file with
  | none => none
  | some df => some (filterTable df e S)

/-! ### Helper lemmas -/

/-- Filtering after mapping is mapping after filtering the composed
predicate. -/
theorem filter_after_map {α β : Type} (f : α → β) (p : β → Bool) (l : List α) :
    (l.map f).filter p = (l.filter (fun x => p (f x))).map f := by
  induction l with
  | nil => rfl
  | cons x xs ih =>
      simp only [List.map_cons, List.filter_cons]
      by_cases h : p (f x) = true
      · simp [h, ih]
      · simp [h, ih]

theorem getCol_setCol (r : Row) (e : String) (c : Cell) :
    getCol (setCol r e c) e = c := by
  simp [getCol, setCol, List.lookup]

theorem getCol_coerceColRow (e : String) (r : Row) :
    getCol (coerceColRow e r) e = coerceCell (getCol r e) := by
  simp [coerceColRow, getCol_setCol]

theorem rowTypeIn_coerceColRow (S : List String) (e : String) (r : Row) :
    rowTypeIn S (coerceColRow e r) = rowTypeIn S r := by
  simp [rowTypeIn, coerceColRow, setCol]

theorem cellPresent_coerceCell (c : Cell) :
    cellPresent (coerceCell c) = (toNumeric c).isSome := by
  cases c <;> rfl

theorem toNumeric_coerceCell (c : Cell) :
    toNumeric (coerceCell c) = toNumeric c := by
  cases c <;> rfl

/-- The filter block, rewritten as one filter over the original rows
followed by the column coercion: rows are kept exactly when their sample
type is selected and their element cell coerces to a non-negative
number. -/
theorem filterTable_eq (df : List Row) (e : String) (S : List String) :
    filterTable df e S = (df.filter (acceptRow e S)).map (coerceColRow e) := by
  unfold filterTable
  dsimp only
  rw [filter_after_map, filter_after_map, List.filter_filter, List.filter_filter]
  congr 1
  apply List.filter_congr
  intro r _
  simp only [acceptRow, colNonNeg, getCol_coerceColRow, cellPresent_coerceCell,
    toNumeric_coerceCell]
  cases h : toNumeric (getCol r e) <;> simp [h, Bool.and_comm]

theorem rowComplete_cleanRow (r : Row) :
    rowComplete (cleanRow r) = keepRow r := by
  simp [rowComplete, cleanRow, keepRow, cellPresent_coerceCell]

/-- `load_data`, rewritten as one filter over the original rows followed
by the coordinate coercion. -/
theorem load_data_eq (raw : List Row) :
    load_data raw = (raw.filter keepRow).map cleanRow := by
  unfold load_data
  rw [filter_after_map]
  congr 1
  exact List.filter_congr (fun r _ => rowComplete_cleanRow r)

theorem foldl_min_le_init (l : List ℚ) (a : ℚ) : l.foldl min a ≤ a := by
  induction l generalizing a with
  | nil => exact le_refl a
  | cons x xs ih => exact le_trans (ih (min a x)) (min_le_left a x)

theorem init_le_foldl_max (l : List ℚ) (a : ℚ) : a ≤ l.foldl max a := by
  induction l generalizing a with
  | nil => exact le_refl a
  | cons x xs ih => exact le_trans (le_max_left a x) (ih (max a x))

theorem min_val_le_max_val (l : List ℚ) : min_val l ≤ max_val l :=
  le_trans (foldl_min_le_init l (l.headD 0)) (init_le_foldl_max l (l.headD 0))

/-! ### Claim theorems -/

/-- C1: every row in the output of the filter block (lines 75-80) has a
sample type belonging to the selected set `S` and a numeric, non-negative
value in the selected element column; and the output is exactly the rows
of the input passing those checks (with the element column coerced), so
rows failing sample-type membership, numeric coercion or non-negativity
are the only rows excluded. -/
theorem C1_filter_correct (df : List Row) (e : String) (S : List String)
    (hcat : e ∈ element_columns) (hS : S ≠ []) :
    (∀ r ∈ filterTable df e S,
        (∃ ty, r.tipo_muestra = some ty ∧ ty ∈ S)
        ∧ ∃ v, getCol r e = Cell.numeric v ∧ 0 ≤ v)
    ∧ filterTable df e S = (df.filter (acceptRow e S)).map (coerceColRow e) := by
  refine ⟨?_, filterTable_eq df e S⟩
  intro r hr
  rw [filterTable_eq] at hr
  obtain ⟨r₀, hr₀, rfl⟩ := List.mem_map.mp hr
  obtain ⟨-, hacc⟩ := List.mem_filter.mp hr₀
  simp only [acceptRow, Bool.and_eq_true] at hacc
  obtain ⟨hty, hval⟩ := hacc
  constructor
  · cases h : r₀.tipo_muestra with
    | none => rw [rowTypeIn, h] at hty; exact absurd hty (by simp)
    | some ty =>
        refine ⟨ty, ?_, ?_⟩
        · simp [coerceColRow, setCol, h]
        · rw [rowTypeIn, h] at hty
          simpa using hty
  · cases h : toNumeric (getCol r₀ e) with
    | none => rw [h] at hval; exact absurd hval (by simp)
    | some v =>
        rw [h] at hval
        refine ⟨v, ?_, by simpa using hval⟩
        rw [getCol_coerceColRow, coerceCell, h]

/-- C1 witness: the filter applied to a one-row table with a selected
sample type and the element value 5. -/
theorem C1_filter_correct_witness :
    (∀ r ∈ filterTable
        [⟨Cell.numeric 1, Cell.numeric 2, some "core", some "X",
          [("Li_ppm2", Cell.numeric 5)]⟩] "Li_ppm2" ["core"],
        (∃ ty, r.tipo_muestra = some ty ∧ ty ∈ ["core"])
        ∧ ∃ v, getCol r "Li_ppm2" = Cell.numeric v ∧ 0 ≤ v)
    ∧ filterTable
        [⟨Cell.numeric 1, Cell.numeric 2, some "core", some "X",
          [("Li_ppm2", Cell.numeric 5)]⟩] "Li_ppm2" ["core"]
      = (List.filter (acceptRow "Li_ppm2" ["core"])
          [⟨Cell.numeric 1, Cell.numeric 2, some "core", some "X",
            [("Li_ppm2", Cell.numeric 5)]⟩]).map (coerceColRow "Li_ppm2") :=
  C1_filter_correct _ "Li_ppm2" ["core"] (by decide) (by decide)

/-- C2: a parsed row survives `load_data`'s cleaning exactly when its
latitude and longitude coerce to numbers and its sample type is present;
every retained row has numeric coordinates and a present sample type; and
the retention predicate ignores every other field (municipality, element
cells). -/
theorem C2_clean_invariant (raw : List Row) :
    load_data raw = (raw.filter keepRow).map cleanRow
    ∧ (∀ r ∈ load_data raw,
        (∃ v, r.latitude = Cell.numeric v)
        ∧ (∃ v, r.longitude = Cell.numeric v)
        ∧ r.tipo_muestra.isSome)
    ∧ ∀ r m els, keepRow { r with municipio := m, elems := els } = keepRow r := by
  refine ⟨load_data_eq raw, ?_, fun r m els => rfl⟩
  intro r hr
  rw [load_data_eq] at hr
  obtain ⟨r₀, hr₀, rfl⟩ := List.mem_map.mp hr
  obtain ⟨-, hkeep⟩ := List.mem_filter.mp hr₀
  simp only [keepRow, Bool.and_eq_true] at hkeep
  obtain ⟨⟨hlat, hlon⟩, hty⟩ := hkeep
  refine ⟨?_, ?_, hty⟩
  · cases h : toNumeric r₀.latitude with
    | none => rw [h] at hlat; exact absurd hlat (by simp)
    | some v => exact ⟨v, by simp [cleanRow, coerceCell, h]⟩
  · cases h : toNumeric r₀.longitude with
    | none => rw [h] at hlon; exact absurd hlon (by simp)
    | some v => exact ⟨v, by simp [cleanRow, coerceCell, h]⟩

/-- C5: the filter block writes only `df_filtered` (line 75 works on a
`.copy()`), so the cached clean table `df` is unchanged by it, and the
coerced element values live only in the derived `df_filtered`. -/
theorem C5_frame (s : AppState) (e : String) (S : List String) :
    (runFilterBlock s e S).df = s.df
    ∧ (runFilterBlock s e S).df_filtered = filterTable s.df e S :=
  ⟨rfl, rfl⟩

/-- C6: `load` reports a missing input file (returns `none`, Python's
`None` after `st.error`) exactly when the file does not exist, and in
that case the run (`if df is not None:` at line 36) produces no filtered
table and reaches no downstream stage. -/
theorem C6_notfound (file : Option (List Row)) :
    (load file = none ↔ file = none)
    ∧ ∀ e S, load file = none → app_run file e S = none := by
  cases file with
  | none => exact ⟨by simp [load], fun e S _ => rfl⟩
  | some raw =>
      refine ⟨by simp [load], fun e S h => ?_⟩
      exact absurd h (by simp [load])

/-- C7: the filter block is deterministic — equal inputs give equal
outputs — and order-preserving: its output is a sublist of the input
table's rows (with the element column coerced), in the input's order. -/
theorem C7_deterministic_order (df df₂ : List Row) (e : String)
    (S S₂ : List String) (hdf : df = df₂) (hS : S = S₂) (hne : S ≠ []) :
    filterTable df e S = filterTable df₂ e S₂
    ∧ (filterTable df e S).Sublist (df.map (coerceColRow e)) := by
  subst hdf hS
  refine ⟨rfl, ?_⟩
  rw [filterTable_eq]
  exact List.Sublist.map (coerceColRow e) (List.filter_sublist df)

/-- C7 witness: two runs on a concrete two-row table. -/
theorem C7_deterministic_order_witness :
    filterTable
        [⟨Cell.numeric 1, Cell.numeric 2, some "soil", none,
          [("Cu_ppm2", Cell.numeric 3)]⟩,
         ⟨Cell.numeric 4, Cell.numeric 5, some "core", none,
          [("Cu_ppm2", Cell.invalid "bad")]⟩] "Cu_ppm2" ["soil", "core"]
      = filterTable
        [⟨Cell.numeric 1, Cell.numeric 2, some "soil", none,
          [("Cu_ppm2", Cell.numeric 3)]⟩,
         ⟨Cell.numeric 4, Cell.numeric 5, some "core", none,
          [("Cu_ppm2", Cell.invalid "bad")]⟩] "Cu_ppm2" ["soil", "core"]
    ∧ (filterTable
        [⟨Cell.numeric 1, Cell.numeric 2, some "soil", none,
          [("Cu_ppm2", Cell.numeric 3)]⟩,
         ⟨Cell.numeric 4, Cell.numeric 5, some "core", none,
          [("Cu_ppm2", Cell.invalid "bad")]⟩] "Cu_ppm2" ["soil", "core"]).Sublist
        (List.map (coerceColRow "Cu_ppm2")
         [⟨Cell.numeric 1, Cell.numeric 2, some "soil", none,
           [("Cu_ppm2", Cell.numeric 3)]⟩,
          ⟨Cell.numeric 4, Cell.numeric 5, some "core", none,
           [("Cu_ppm2", Cell.invalid "bad")]⟩]) :=
  C7_deterministic_order _ _ "Cu_ppm2" _ _ rfl rfl (by decide)

/-- C9: the loader is deterministic — run twice on the same parsed file
contents it returns identical clean tables, equal in contents and row
order. -/
theorem C9_loader_deterministic (raw raw₂ : List Row) (h : raw = raw₂) :
    load_data raw = load_data raw₂ := by
  rw [h]

/-- C9 witness: two runs on a concrete one-row table. -/
theorem C9_loader_deterministic_witness :
    load_data [⟨Cell.invalid "x", Cell.numeric 2, some "core", none, []⟩]
      = load_data [⟨Cell.invalid "x", Cell.numeric 2, some "core", none, []⟩] :=
  C9_loader_deterministic _ _ rfl

/-- C3: when the filtered values' minimum equals their maximum (singleton
case included), every point gets the constant fallback color `blue` and
no legend is added; and the gradient color / legend appear exactly when
`max > min`. -/
theorem C3_degenerate_scale (values : List ℚ) (elName : String)
    (hne : values ≠ []) (heq : min_val values = max_val values) :
    (∀ x, point_color (min_val values) (max_val values) x = Color.blue)
    ∧ legend (min_val values) (max_val values) elName = none
    ∧ (∀ mn mx x : ℚ, (∃ c, point_color mn mx x = Color.grad c) ↔ mn < mx)
    ∧ (∀ mn mx : ℚ, (legend mn mx elName).isSome ↔ mn < mx) := by
  have hnl : ¬ min_val values < max_val values := by rw [heq]; exact lt_irrefl _
  refine ⟨fun x => ?_, ?_, fun mn mx x => ?_, fun mn mx => ?_⟩
  · rw [point_color, if_neg hnl]
  · rw [legend, if_neg hnl]
  · constructor
    · rintro ⟨c, hc⟩
      by_contra h
      rw [point_color, if_neg h] at hc
      exact Color.noConfusion hc
    · intro h
      exact ⟨colormap mn mx x, by rw [point_color, if_pos h]⟩
  · constructor
    · intro h
      by_contra hlt
      rw [legend, if_neg hlt] at h
      exact absurd h (by simp)
    · intro h
      rw [legend, if_pos h]
      rfl

/-- C3 witness: the constant list `[2, 2]`. -/
theorem C3_degenerate_scale_witness :
    (∀ x, point_color (min_val [2, 2]) (max_val [2, 2]) x = Color.blue)
    ∧ legend (min_val [2, 2]) (max_val [2, 2]) "Li" = none
    ∧ (∀ mn mx x : ℚ, (∃ c, point_color mn mx x = Color.grad c) ↔ mn < mx)
    ∧ (∀ mn mx : ℚ, (legend mn mx "Li").isSome ↔ mn < mx) :=
  C3_degenerate_scale [2, 2] "Li" (by decide) (by decide)

/-- C4 counterexample: handed `min = 1 > max = 0`, the code silently
yields the same constant fallback color and missing legend as the
legitimate degenerate case — there is no `InvalidRange` error path, so
the branch is not treated as a defensive error. -/
theorem C4_counterexample :
    point_color 1 0 5 = Color.blue ∧ legend 1 0 "Li" = none
    ∧ point_color 1 0 5 = point_color 1 1 5 := by
  refine ⟨?_, ?_, ?_⟩ <;> decide

/-- C4 (amended): for any non-empty list of filtered values the minimum
never exceeds the maximum, so the `max < min` branch is unreachable; and
were `point_color` nevertheless given `max < min`, it would silently
fall back to the constant color `blue` with no legend — not signal an
error. -/
theorem C4_min_le_max (values : List ℚ) (mn mx x : ℚ) (elName : String)
    (hne : values ≠ []) (hlt : mx < mn) :
    min_val values ≤ max_val values
    ∧ point_color mn mx x = Color.blue
    ∧ legend mn mx elName = none := by
  have hnl : ¬ mn < mx := not_lt_of_gt hlt
  exact ⟨min_val_le_max_val values, by rw [point_color, if_neg hnl],
    by rw [legend, if_neg hnl]⟩

/-- C4 witness: the singleton list `[3]` and the inverted range
`min = 1, max = 0`. -/
theorem C4_min_le_max_witness :
    min_val [3] ≤ max_val [3]
    ∧ point_color 1 0 5 = Color.blue
    ∧ legend 1 0 "Li" = none :=
  C4_min_le_max [3] 1 0 5 "Li" (by decide) (by decide)

set_option maxHeartbeats 4000000 in
/-- The red+green channel sum strictly decreases along the YlOrRd
gradient: positions strictly inside `[0, 1]` in increasing order give
strictly decreasing sums, so the sum orders colors consistently along
the gradient. -/
theorem chanSum_colorAt_strictAnti (t₁ t₂ : ℚ) (h0 : 0 < t₁) (h12 : t₁ < t₂)
    (h1 : t₂ < 1) : chanSum (colorAt t₂) < chanSum (colorAt t₁) := by
  simp only [colorAt, chanSum, lerp3, ylOrRd0, ylOrRd1, ylOrRd2, ylOrRd3,
    ylOrRd4, ylOrRd5, ylOrRd6, ylOrRd7, ylOrRd8]
  split_ifs <;> simp only <;> linarith

/-- Positions at or below the interval's start take the first stop. -/
theorem colorAt_of_nonpos (t : ℚ) (h : t ≤ 0) : colorAt t = ylOrRd0 := by
  unfold colorAt
  rw [if_pos h]

/-- Positions at or past the interval's end take the last stop. -/
theorem colorAt_of_one_le (t : ℚ) (h : 1 ≤ t) : colorAt t = ylOrRd8 := by
  unfold colorAt
  split_ifs with h1 h2 h3 h4 h5 h6 h7 h8 h9
  · exfalso; linarith
  · exfalso; linarith
  · exfalso; linarith
  · exfalso; linarith
  · exfalso; linarith
  · exfalso; linarith
  · exfalso; linarith
  · exfalso; linarith
  · have ht : t = 1 := le_antisymm h9 h
    subst ht
    simp only [lerp3, ylOrRd7, ylOrRd8]
    norm_num
  · rfl

/-- C8: over `[min, max]` with `max > min` the scale is monotone along
the gradient — for `min < v₁ < v₂ < max` the color of `v₂` sits strictly
further along the yellow-orange-red gradient (strictly smaller red+green
sum) and differs from the color of `v₁`; the scale maps `min` to the
gradient's first stop and `max` to its last; and inputs outside
`[min, max]` are clamped to the interval's endpoint colors. -/
theorem C8_scale_monotone (mn mx v₁ v₂ : ℚ) (hmm : mn < mx)
    (h1 : mn < v₁) (h12 : v₁ < v₂) (h2 : v₂ < mx) :
    chanSum (colormap mn mx v₂) < chanSum (colormap mn mx v₁)
    ∧ colormap mn mx v₁ ≠ colormap mn mx v₂
    ∧ colormap mn mx mn = ylOrRd0
    ∧ colormap mn mx mx = ylOrRd8
    ∧ (∀ x, x ≤ mn → colormap mn mx x = ylOrRd0)
    ∧ (∀ x, mx ≤ x → colormap mn mx x = ylOrRd8) := by
  have hd : (0 : ℚ) < mx - mn := by linarith
  have ht1 : 0 < (v₁ - mn) / (mx - mn) := div_pos (by linarith) hd
  have ht12 : (v₁ - mn) / (mx - mn) < (v₂ - mn) / (mx - mn) :=
    (div_lt_div_iff_of_pos_right hd).mpr (by linarith)
  have ht2 : (v₂ - mn) / (mx - mn) < 1 := (div_lt_one hd).mpr (by linarith)
  have hmain : chanSum (colormap mn mx v₂) < chanSum (colormap mn mx v₁) :=
    chanSum_colorAt_strictAnti _ _ ht1 ht12 ht2
  refine ⟨hmain, ?_, ?_, ?_, fun x hx => ?_, fun x hx => ?_⟩
  · intro hEq
    rw [hEq] at hmain
    exact lt_irrefl _ hmain
  · show colorAt ((mn - mn) / (mx - mn)) = ylOrRd0
    rw [sub_self, zero_div]
    exact colorAt_of_nonpos 0 le_rfl
  · show colorAt ((mx - mn) / (mx - mn)) = ylOrRd8
    rw [div_self (ne_of_gt hd)]
    exact colorAt_of_one_le 1 le_rfl
  · show colorAt ((x - mn) / (mx - mn)) = ylOrRd0
    exact colorAt_of_nonpos _ (div_nonpos_of_nonpos_of_nonneg (by linarith) (le_of_lt hd))
  · show colorAt ((x - mn) / (mx - mn)) = ylOrRd8
    exact colorAt_of_one_le _ ((one_le_div hd).mpr (by linarith))

/-- C8 witness: the scale over `[0, 8]` at the interior points 1 and 2. -/
theorem C8_scale_monotone_witness :
    chanSum (colormap 0 8 2) < chanSum (colormap 0 8 1)
    ∧ colormap 0 8 1 ≠ colormap 0 8 2
    ∧ colormap 0 8 0 = ylOrRd0
    ∧ colormap 0 8 8 = ylOrRd8
    ∧ (∀ x, x ≤ 0 → colormap 0 8 x = ylOrRd0)
    ∧ (∀ x, (8 : ℚ) ≤ x → colormap 0 8 x = ylOrRd8) :=
  C8_scale_monotone 0 8 1 2 (by norm_num) (by norm_num) (by norm_num) (by norm_num)

/-- C10: the element catalog has exactly 20 column names; each column's
displayed symbol (its text before the first underscore) followed by
`_ppm2` yields the column name back; every displayed symbol resolves to
a column of the catalog; and the 20 symbols are pairwise distinct, so
each resolves to exactly one catalog column. -/
theorem C10_catalog_roundtrip :
    element_columns.length = 20
    ∧ (∀ e ∈ element_columns, columnOf (symbolOf e) = e)
    ∧ (∀ s ∈ element_names, columnOf s ∈ element_columns)
    ∧ element_names.Nodup := by
  decide
